import Mathlib

/-!
Verification of the routetable-ipam allocation protocol.

The repository implements an IPAM that claims an IP address by inserting a
host route (/32) into the kernel routing table, waiting for route
propagation, and re-querying to detect races.  The protocol exists twice in
the source: as free functions (`SelectAddress` / `attemptAddress` /
`numRoutesTo` in functions.go) and as methods (`address.New` /
`Address.attempt` / `Address.numRoutes` in address/address.go).

Embedding choices:
* IPv4 addresses are naturals modulo `W = 2^32`; `iputil.IPAdd` wraps at the
  address width, modelled by `ipAdd`.  `iputil.FirstAddr` / `LastAddr`
  (network ID / broadcast of the candidate's own IPNet) are `firstAddr` /
  `lastAddr` over the host-bit count `h` of the subnet mask.
* The netlink route table gateway is external: each allocation attempt
  consumes an `AttemptScript` holding the gateway's responses (pre-claim
  query, RouteAdd success, re-verification query, RouteDel success), and the
  functions additionally return the list of gateway operations they issued.
* The session loops are fuel-indexed; `none` means the loop is still running
  after `fuel` iterations (the Go loop has no bound of its own).
* `iputil.RandAddrWithExclude` is third-party; it is modelled at its
  interface as an arbitrary `randStart` parameter, constrained in theorem
  hypotheses per spec §4.1 (the first candidate lies inside the eligible
  range) where the spec's contract is satisfiable.
-/

deriving instance DecidableEq for Except

/-- Width of the IPv4 address space; `iputil.IPAdd` wraps at this width. -/
def W : Nat := 2 ^ 32

/-- Model of `iputil.IPAdd`: add a (possibly negative) offset to an address,
wrapping at the address width. -/
def ipAdd (x : Nat) (d : Int) : Nat :=
  (((x : Int) + d) % (W : Int)).toNat

/-- Model of `iputil.FirstAddr` (= `iputil.NetworkID` IP) of an IPNet whose
IP is `ip` and whose mask leaves `h` host bits: all host bits cleared. -/
def firstAddr (h ip : Nat) : Nat := ip - ip % 2 ^ h

/-- Model of `iputil.LastAddr` (broadcast) of an IPNet whose IP is `ip` and
whose mask leaves `h` host bits: all host bits set. -/
def lastAddr (h ip : Nat) : Nat := ip - ip % 2 ^ h + (2 ^ h - 1)

/-- One route entry as reported by `netlink.RouteListFiltered` for the host
destination: `multiPath` is the length of its `MultiPath` next-hop list
(0 for a plain single-next-hop route); `ours` is a ghost flag marking the
route this process inserted. -/
structure RouteInfo where
  ours : Bool
  multiPath : Nat
deriving DecidableEq, Repr

/-- Gateway responses consumed by one allocation attempt: the pre-claim
`RouteListFiltered` response, whether `RouteAdd` succeeds, the
re-verification `RouteListFiltered` response, and whether `RouteDel`
succeeds.  `Except.error` on a query models a netlink query failure. -/
structure AttemptScript where
  preQuery : Except Unit (List RouteInfo)
  addOk : Bool
  reQuery : Except Unit (List RouteInfo)
  delOk : Bool
deriving DecidableEq, Repr

/-- Gateway operations issued by the code, in order.  `query` is a
`RouteListFiltered` call (flag: it succeeded), `add`/`del` are
`RouteAdd`/`RouteDel` for the candidate host route on the given link index
(flag: it succeeded), `routeGet` is the `netlink.RouteGet` link-resolution
lookup. -/
inductive Op where
  | query (ok : Bool)
  | add (linkIndex : Int) (ok : Bool)
  | del (linkIndex : Int) (ok : Bool)
  | routeGet
deriving DecidableEq, Repr

/-- Error outcomes of a single allocation attempt, one per return site of
`Address.attempt` / `attemptAddress`. -/
inductive AErr where
  | nilNet
  | networkID
  | broadcast
  | queryErr
  | inUse
  | addErr
  | rollbackErr
  | requeryErr
  | vanished
  | raceDelErr
  | raceLost
deriving DecidableEq, Repr

/-- Model of `Address.numRoutes` (address/address.go:201-219) applied to a
successful `RouteListFiltered` response: `len(routes) != 1` returns the
length; one route with non-empty `MultiPath` returns the multipath length;
one plain route returns 1. -/
def numRoutesOfList (routes : List RouteInfo) : Nat :=
  if routes.length ≠ 1 then routes.length
  else
    match routes with
    | [r] => if r.multiPath ≠ 0 then r.multiPath else 1
    | _ => routes.length

/-- Model of `numRoutesTo` (functions.go:154-163) applied to a successful
`RouteListFiltered` response: `len(routes) != 1` returns the length;
otherwise it returns `len(routes[0].MultiPath)` — note it returns 0 for one
plain route, unlike `Address.numRoutes`. -/
def numRoutesToOfList (routes : List RouteInfo) : Nat :=
  if routes.length ≠ 1 then routes.length
  else
    match routes with
    | [r] => r.multiPath
    | _ => routes.length

/-- Model of `Address.attempt` (address/address.go:105-171) for a candidate
`ip` in a subnet with `h` host bits on link `li`, against the gateway
responses `s`.  Returns the result and the issued gateway operations. -/
def attempt (h : Nat) (li : Int) (ip : Nat) (ipnetNil : Bool)
    (s : AttemptScript) : Except AErr Unit × List Op :=
  if ipnetNil then (.error .nilNet, [])
  else if ip = firstAddr h ip then (.error .networkID, [])
  else if ip = lastAddr h ip then (.error .broadcast, [])
  else
    match s.preQuery with
    | .error _ => (.error .queryErr, [.query false])
    | .ok routes =>
      if numRoutesOfList routes > 0 then (.error .inUse, [.query true])
      else if ¬ s.addOk then (.error .addErr, [.query true, .add li false])
      else
        match s.reQuery with
        | .error _ =>
          if s.delOk then
            (.error .requeryErr,
              [.query true, .add li true, .query false, .del li true])
          else
            (.error .rollbackErr,
              [.query true, .add li true, .query false, .del li false])
        | .ok routes2 =>
          let n := numRoutesOfList routes2
          if n < 1 then
            (.error .vanished, [.query true, .add li true, .query true])
          else if n = 1 then
            (.ok (), [.query true, .add li true, .query true])
          else if s.delOk then
            (.error .raceLost,
              [.query true, .add li true, .query true, .del li true])
          else
            (.error .raceDelErr,
              [.query true, .add li true, .query true, .del li false])

/-- Model of `attemptAddress` (functions.go:64-125): identical control flow
to `Address.attempt`, but the route counting goes through `numRoutesTo`
(`numRoutesToOfList`) instead of `Address.numRoutes`. -/
def attemptAddressF (h : Nat) (li : Int) (ip : Nat) (reqNil : Bool)
    (s : AttemptScript) : Except AErr Unit × List Op :=
  if reqNil then (.error .nilNet, [])
  else if ip = firstAddr h ip then (.error .networkID, [])
  else if ip = lastAddr h ip then (.error .broadcast, [])
  else
    match s.preQuery with
    | .error _ => (.error .queryErr, [.query false])
    | .ok routes =>
      if numRoutesToOfList routes > 0 then (.error .inUse, [.query true])
      else if ¬ s.addOk then (.error .addErr, [.query true, .add li false])
      else
        match s.reQuery with
        | .error _ =>
          if s.delOk then
            (.error .requeryErr,
              [.query true, .add li true, .query false, .del li true])
          else
            (.error .rollbackErr,
              [.query true, .add li true, .query false, .del li false])
        | .ok routes2 =>
          let n := numRoutesToOfList routes2
          if n < 1 then
            (.error .vanished, [.query true, .add li true, .query true])
          else if n = 1 then
            (.ok (), [.query true, .add li true, .query true])
          else if s.delOk then
            (.error .raceLost,
              [.query true, .add li true, .query true, .del li true])
          else
            (.error .raceDelErr,
              [.query true, .add li true, .query true, .del li false])

/-- Candidate advancement of the session loop (address/address.go:63-68 and
functions.go:46-50): increment by one; when the result equals `lastA` the
candidate rolls over to `firstA + 1`. -/
def advance (firstA lastA cur : Nat) : Nat :=
  let c1 := ipAdd cur 1
  if c1 = lastA then ipAdd firstA 1 else c1

/-- Terminating outcomes of the `address.New` session loop: success carries
the IP held by the returned `Address` record. -/
inductive SessionOut where
  | success (ip : Nat)
  | exhausted
deriving DecidableEq, Repr

/-- Model of the retry loop of `address.New` (address/address.go:56-76),
fuel-indexed.  `cur` is `a.IPNet.IP`, `k` indexes the per-iteration gateway
script.  Returns the outcome plus the list of attempted candidates with the
gateway operations each attempt issued; `none` means the loop is still
running after `fuel` iterations. -/
def newLoop (h : Nat) (li : Int) (search : Bool) (startA firstA lastA : Nat)
    (scripts : Nat → AttemptScript) (fuel : Nat) (cur k : Nat) :
    Option (SessionOut × List (Nat × List Op)) :=
  match fuel with
  | 0 => none
  | fuel + 1 =>
    let r := attempt h li cur false (scripts k)
    match r.1 with
    | .ok _ => some (.success cur, [(cur, r.2)])
    | .error _ =>
      if search then
        let c2 := advance firstA lastA cur
        if c2 = startA then some (.exhausted, [(cur, r.2)])
        else
          (newLoop h li search startA firstA lastA scripts fuel c2
            (k + 1)).map (fun o => (o.1, (cur, r.2) :: o.2))
      else
        (newLoop h li search startA firstA lastA scripts fuel cur
          (k + 1)).map (fun o => (o.1, (cur, r.2) :: o.2))

/-- Model of `address.New` (address/address.go:31-79) after a successful
`Get`: the subnet has `h` host bits and the parsed IPNet's IP is `reqIP`.
Search mode triggers when `reqIP` equals its own network ID, replacing the
IP with `randStart` (the `iputil.RandAddrWithExclude` result, external) and
computing the roll-over bounds from the mutated IPNet, exactly as the source
does. -/
def NewRun (h : Nat) (reqIP randStart xf xl : Nat) (li : Int)
    (scripts : Nat → AttemptScript) (fuel : Nat) :
    Option (SessionOut × List (Nat × List Op)) :=
  if reqIP = firstAddr h reqIP then
    newLoop h li true randStart (ipAdd (firstAddr h randStart) xf)
      (ipAdd (lastAddr h randStart) (-(xl : Int))) scripts fuel randStart 0
  else
    newLoop h li false 0 0 0 scripts fuel reqIP 0

/-- One route as reported by `netlink.RouteGet`: an optional gateway
(next hop) and the link index of the egress interface. -/
structure RGRoute where
  gw : Option Nat
  linkIndex : Int
deriving DecidableEq, Repr

/-- Error outcomes of `LinkIndexFromIPNet`. -/
inductive LinkErr where
  | routeGetErr
  | notFound
deriving DecidableEq, Repr

/-- Model of `LinkIndexFromIPNet` (functions.go:175-190): on a successful
`RouteGet` response, return the link index of the first route with no
gateway; report `notFound` when every route has a gateway. -/
def linkIndexFromIPNet (resp : Except Unit (List RGRoute)) :
    Except LinkErr Int :=
  match resp with
  | .error _ => .error .routeGetErr
  | .ok routes =>
    match routes.find? (fun r => r.gw.isNone) with
    | some r => .ok r.linkIndex
    | none => .error .notFound

/-- Terminating outcomes of `SelectAddress`: link resolution failure,
success with the selected IP, or exhaustion of the search space. -/
inductive SelectOut where
  | linkErr (e : LinkErr)
  | success (ip : Nat)
  | exhausted
deriving DecidableEq, Repr

/-- Model of the retry loop of `SelectAddress` (functions.go:36-58),
identical in structure to `newLoop` but with the attempt going through
`attemptAddress` / `numRoutesTo`. -/
def selectLoop (h : Nat) (li : Int) (search : Bool)
    (startA firstA lastA : Nat) (scripts : Nat → AttemptScript)
    (fuel : Nat) (cur k : Nat) :
    Option (SelectOut × List (Nat × List Op)) :=
  match fuel with
  | 0 => none
  | fuel + 1 =>
    let r := attemptAddressF h li cur false (scripts k)
    match r.1 with
    | .ok _ => some (.success cur, [(cur, r.2)])
    | .error _ =>
      if search then
        let c2 := advance firstA lastA cur
        if c2 = startA then some (.exhausted, [(cur, r.2)])
        else
          (selectLoop h li search startA firstA lastA scripts fuel c2
            (k + 1)).map (fun o => (o.1, (cur, r.2) :: o.2))
      else
        (selectLoop h li search startA firstA lastA scripts fuel cur
          (k + 1)).map (fun o => (o.1, (cur, r.2) :: o.2))

/-- Search-mode set-up and loop of `SelectAddress` (functions.go:23-61),
after a link index `li` has been obtained. -/
def selectBody (h : Nat) (reqIP randStart xf xl : Nat) (li : Int)
    (scripts : Nat → AttemptScript) (fuel : Nat) :
    Option (SelectOut × List (Nat × List Op)) :=
  if reqIP = firstAddr h reqIP then
    selectLoop h li true randStart (ipAdd (firstAddr h randStart) xf)
      (ipAdd (lastAddr h randStart) (-(xl : Int))) scripts fuel randStart 0
  else
    selectLoop h li false 0 0 0 scripts fuel reqIP 0

/-- Model of `SelectAddress` (functions.go:14-61): first resolve the link
index through `LinkIndexFromIPNet` (propagating its failure before any
attempt), then run the retry loop. -/
def SelectRun (h : Nat) (reqIP randStart xf xl : Nat)
    (rgResp : Except Unit (List RGRoute)) (scripts : Nat → AttemptScript)
    (fuel : Nat) : Option (SelectOut × List (Nat × List Op)) :=
  match linkIndexFromIPNet rgResp with
  | .error e => some (.linkErr e, [])
  | .ok li => selectBody h reqIP randStart xf xl li scripts fuel

/-- Heap object modelling one `*net.IPNet`: its IP and the host-bit count
of its mask. -/
structure IPNetObj where
  ip : Nat
  hbits : Nat
deriving DecidableEq, Repr

/-- Error outcomes of the pointer-level `SelectAddress` model. -/
inductive PErr where
  | routeGetErr
  | notFound
  | exhausted
deriving DecidableEq, Repr

/-- Pointer-level retry loop of `SelectAddress` (functions.go:36-58):
`randAddr` is the heap pointer `q`, and the advancement on each failed
iteration writes the new candidate IP through `q`, mutating the shared
object in place exactly as `randAddr.IP = iputil.IPAdd(...)` does. -/
def selectLoopPtr (li : Int) (search : Bool) (startA firstA lastA : Nat)
    (scripts : Nat → AttemptScript) (fuel : Nat) (hp : List IPNetObj)
    (q k : Nat) : Option (Except PErr Nat × List IPNetObj) :=
  match fuel with
  | 0 => none
  | fuel + 1 =>
    match hp.get? q with
    | none => none
    | some obj =>
      let r := attemptAddressF obj.hbits li obj.ip false (scripts k)
      match r.1 with
      | .ok _ => some (.ok q, hp)
      | .error _ =>
        if search then
          let c2 := advance firstA lastA obj.ip
          let hp1 := hp.set q { obj with ip := c2 }
          if c2 = startA then some (.error .exhausted, hp1)
          else selectLoopPtr li search startA firstA lastA scripts fuel hp1
                 q (k + 1)
        else selectLoopPtr li search startA firstA lastA scripts fuel hp
               q (k + 1)

/-- Pointer-level model of `SelectAddress` (functions.go:14-61): the
argument is the heap pointer `p`; `randAddr := addr` copies the pointer, so
the random start is written through `p` and the roll-over bounds are
computed from the already-mutated object, exactly as the source does.  On
success the function returns `randAddr`, i.e. the pointer `p` itself. -/
def selectAddressPtr (hp : List IPNetObj) (p : Nat) (randStart xf xl : Nat)
    (rgResp : Except Unit (List RGRoute)) (scripts : Nat → AttemptScript)
    (fuel : Nat) : Option (Except PErr Nat × List IPNetObj) :=
  match linkIndexFromIPNet rgResp with
  | .error .routeGetErr => some (.error .routeGetErr, hp)
  | .error .notFound => some (.error .notFound, hp)
  | .ok li =>
    match hp.get? p with
    | none => none
    | some addrObj =>
      if addrObj.ip = firstAddr addrObj.hbits addrObj.ip then
        let hp1 := hp.set p { addrObj with ip := randStart }
        selectLoopPtr li true randStart
          (ipAdd (firstAddr addrObj.hbits randStart) xf)
          (ipAdd (lastAddr addrObj.hbits randStart) (-(xl : Int)))
          scripts fuel hp1 p 0
      else selectLoopPtr li false 0 0 0 scripts fuel hp p 0

/-- An operation list contains a successful `RouteAdd`. -/
def hasAdd (ops : List Op) : Bool :=
  ops.any (fun o => match o with | .add _ true => true | _ => false)

/-- An operation list contains a successful `RouteDel`. -/
def hasSuccessfulDel (ops : List Op) : Bool :=
  ops.any (fun o => match o with | .del _ true => true | _ => false)

/-- An operation list contains a `RouteAdd` or `RouteDel` (mutation),
successful or not. -/
def hasMutation (ops : List Op) : Bool :=
  ops.any (fun o =>
    match o with | .add _ _ => true | .del _ _ => true | _ => false)

/-- A query response that is not a singleton plain route (one entry with an
empty multipath list): on such responses `Address.numRoutes` and
`numRoutesTo` agree. -/
def goodResp (resp : Except Unit (List RouteInfo)) : Prop :=
  ∀ r : RouteInfo, resp = .ok [r] → r.multiPath ≠ 0

/-- A per-iteration gateway script whose pre-claim query reports the
candidate as already in use (at least one route held, counted as such by
`Address.numRoutes`). -/
def inUseScript (s : AttemptScript) : Prop :=
  ∃ rs, s.preQuery = .ok rs ∧ 0 < numRoutesOfList rs

/-- Successor of a candidate in the eligible range `[lo, hi]`: the value the
session's advancement produces there (increment, wrapping from `hi` to
`lo`). -/
def stepCand (lo hi c : Nat) : Nat := if c = hi then lo else c + 1

/-- The list of the next `m` candidates the search visits starting at `c`,
walking `stepCand`. -/
def candList (lo hi : Nat) : Nat → Nat → List Nat
  | _, 0 => []
  | c, m + 1 => c :: candList lo hi (stepCand lo hi c) m

/-- Number of further attempts a search at candidate `c` performs before the
advancement returns to `startA` (a full lap `hi + 1 - lo` when
`c = startA`). -/
def remSteps (lo hi startA c : Nat) : Nat :=
  if c < startA then startA - c else startA + (hi + 1 - lo) - c

/-- Outcome translation between the two session loops (they differ only in
the error message values, which both copies discard). -/
def toSelectOut : SessionOut → SelectOut
  | .success ip => .success ip
  | .exhausted => .exhausted

/-- Gateway scripts whose pre-claim query always reports one route with one
aggregated multipath next hop: every candidate is already in use. -/
def iuScripts : Nat → AttemptScript :=
  fun _ => ⟨.ok [⟨false, 1⟩], true, .ok [⟨true, 0⟩], true⟩

/-- Gateway script reporting exactly one plain route (empty multipath list)
to the candidate both before the claim and at re-verification. -/
def plainRouteScript : AttemptScript :=
  ⟨.ok [⟨false, 0⟩], true, .ok [⟨true, 0⟩], true⟩

/-- Gateway script for an uncontended claim: no route before the claim, and
at re-verification exactly the plain host route this process inserted. -/
def freeThenOursScript : AttemptScript :=
  ⟨.ok [], true, .ok [⟨true, 0⟩], true⟩

/-- Gateway script where the candidate is free but `RouteAdd` fails: a route
mutation failure. -/
def addFailScript : AttemptScript :=
  ⟨.ok [], false, .ok [], true⟩

/-- Script sequence separating the two protocol copies: the first candidate
has one plain route, later candidates are uncontended. -/
def c4Scripts : Nat → AttemptScript :=
  fun k => if k = 0 then plainRouteScript else freeThenOursScript

/-- Script sequence whose first attempt hits a route mutation failure and
whose later attempts find the candidate in use. -/
def c5Scripts : Nat → AttemptScript :=
  fun k => if k = 0 then addFailScript else ⟨.ok [⟨false, 1⟩], true, .ok [⟨true, 0⟩], true⟩

/-- Constant scripts built from `freeThenOursScript`. -/
def freeThenOursScripts : Nat → AttemptScript := fun _ => freeThenOursScript

/-- Scripts where every attempt's candidate is free but every `RouteAdd`
fails: persistent route mutation failures. -/
def addFailScripts : Nat → AttemptScript := fun _ => addFailScript

/-- Scripts for an uncontended claim as observed by the free-function copy:
the re-verification reports one route with exactly one multipath next hop,
the only shape `numRoutesTo` counts as 1. -/
def freeOkScripts : Nat → AttemptScript :=
  fun _ => ⟨.ok [], true, .ok [⟨true, 1⟩], true⟩

/-! ### Arithmetic and unfolding lemmas -/

lemma W_pos : 0 < W := by norm_num [W]

lemma ipAdd_nat (x y : Nat) (hxy : x + y < W) : ipAdd x (y : Int) = x + y := by
  unfold ipAdd
  have h1 : (x : Int) + (y : Int) = ((x + y : Nat) : Int) := by push_cast; ring
  rw [h1, Int.emod_eq_of_lt (by positivity) (by exact_mod_cast hxy),
    Int.toNat_natCast]

lemma ipAdd_one (x : Nat) (hx : x + 1 < W) : ipAdd x 1 = x + 1 := by
  have h := ipAdd_nat x 1 hx
  simpa using h

lemma ipAdd_neg (x y : Nat) (hyx : y ≤ x) (hxW : x < W) :
    ipAdd x (-(y : Int)) = x - y := by
  unfold ipAdd
  have h1 : (x : Int) + -(y : Int) = ((x - y : Nat) : Int) := by
    push_cast [hyx]; ring
  rw [h1, Int.emod_eq_of_lt (by positivity)
    (by exact_mod_cast (show x - y < W by omega)), Int.toNat_natCast]

lemma firstAddr_of_aligned (h b r : Nat) (hb : b % 2 ^ h = 0) (h1 : b ≤ r)
    (h2 : r < b + 2 ^ h) : firstAddr h r = b := by
  obtain ⟨d, rfl⟩ : ∃ d, r = b + d := ⟨r - b, by omega⟩
  have hd : (b + d) % 2 ^ h = d := by
    rw [Nat.add_mod, hb]
    simp [Nat.mod_eq_of_lt (show d < 2 ^ h by omega)]
  unfold firstAddr
  omega

lemma firstAddr_self_of_aligned (h b : Nat) (hb : b % 2 ^ h = 0) :
    firstAddr h b = b := by
  unfold firstAddr
  omega

lemma lastAddr_of_aligned (h b r : Nat) (hb : b % 2 ^ h = 0) (h1 : b ≤ r)
    (h2 : r < b + 2 ^ h) : lastAddr h r = b + 2 ^ h - 1 := by
  have hf := firstAddr_of_aligned h b r hb h1 h2
  unfold lastAddr
  unfold firstAddr at hf
  omega

lemma stepCand_range (lo hi c : Nat) (hlo : lo ≤ hi) (h1 : lo ≤ c)
    (h2 : c ≤ hi) : lo ≤ stepCand lo hi c ∧ stepCand lo hi c ≤ hi := by
  unfold stepCand
  split <;> omega

lemma advance_eq_step (lo hi firstA lastA cur : Nat)
    (hfa : ipAdd firstA 1 = lo) (hla : lastA = hi + 1) (hw : hi + 1 < W)
    (hc1 : lo ≤ cur) (hc2 : cur ≤ hi) :
    advance firstA lastA cur = stepCand lo hi cur := by
  unfold advance stepCand
  rw [ipAdd_one cur (by omega)]
  by_cases hch : cur = hi
  · subst hch; simp [hla, hfa]
  · have hne : ¬ cur + 1 = lastA := by omega
    simp [hne, hch]

lemma remSteps_bounds (lo hi startA c : Nat) (hlo : lo ≤ hi)
    (hs1 : lo ≤ startA) (hs2 : startA ≤ hi) (h1 : lo ≤ c) (h2 : c ≤ hi) :
    1 ≤ remSteps lo hi startA c ∧ remSteps lo hi startA c ≤ hi + 1 - lo := by
  unfold remSteps
  split <;> omega

lemma remSteps_self (lo hi startA : Nat) (hs1 : lo ≤ startA) :
    remSteps lo hi startA startA = hi + 1 - lo := by
  unfold remSteps
  split <;> omega

lemma remSteps_one_iff (lo hi startA cur : Nat) (hlo : lo ≤ hi)
    (hs1 : lo ≤ startA) (hs2 : startA ≤ hi) (h1 : lo ≤ cur) (h2 : cur ≤ hi) :
    remSteps lo hi startA cur = 1 ↔ stepCand lo hi cur = startA := by
  unfold remSteps stepCand
  split <;> split <;> omega

lemma remSteps_step (lo hi startA cur : Nat) (hlo : lo ≤ hi)
    (hs1 : lo ≤ startA) (hs2 : startA ≤ hi) (h1 : lo ≤ cur) (h2 : cur ≤ hi)
    (hr : 2 ≤ remSteps lo hi startA cur) :
    remSteps lo hi startA (stepCand lo hi cur) =
      remSteps lo hi startA cur - 1 := by
  unfold remSteps stepCand at *
  split at hr <;> split <;> split <;> omega

lemma remSteps_inj (lo hi startA x y : Nat) (hlo : lo ≤ hi)
    (hs1 : lo ≤ startA) (hs2 : startA ≤ hi) (hx1 : lo ≤ x) (hx2 : x ≤ hi)
    (hy1 : lo ≤ y) (hy2 : y ≤ hi)
    (hxy : remSteps lo hi startA x = remSteps lo hi startA y) : x = y := by
  unfold remSteps at hxy
  split at hxy <;> split at hxy <;> omega

lemma candList_length (lo hi : Nat) :
    ∀ q c, (candList lo hi c q).length = q := by
  intro q
  induction q with
  | zero => intro c; rfl
  | succ q ih => intro c; simp [candList, ih]

lemma newLoop_zero (h : Nat) (li : Int) (search : Bool)
    (startA firstA lastA : Nat) (scripts : Nat → AttemptScript) (cur k : Nat) :
    newLoop h li search startA firstA lastA scripts 0 cur k = none := rfl

lemma newLoop_succ (h : Nat) (li : Int) (search : Bool)
    (startA firstA lastA : Nat) (scripts : Nat → AttemptScript)
    (fuel cur k : Nat) :
    newLoop h li search startA firstA lastA scripts (fuel + 1) cur k =
      match (attempt h li cur false (scripts k)).1 with
      | .ok _ => some (.success cur, [(cur, (attempt h li cur false (scripts k)).2)])
      | .error _ =>
        if search then
          if advance firstA lastA cur = startA then
            some (.exhausted, [(cur, (attempt h li cur false (scripts k)).2)])
          else
            (newLoop h li search startA firstA lastA scripts fuel
              (advance firstA lastA cur) (k + 1)).map
              (fun o => (o.1, (cur, (attempt h li cur false (scripts k)).2) :: o.2))
        else
          (newLoop h li search startA firstA lastA scripts fuel cur
            (k + 1)).map
            (fun o => (o.1, (cur, (attempt h li cur false (scripts k)).2) :: o.2)) := rfl

lemma selectLoop_zero (h : Nat) (li : Int) (search : Bool)
    (startA firstA lastA : Nat) (scripts : Nat → AttemptScript) (cur k : Nat) :
    selectLoop h li search startA firstA lastA scripts 0 cur k = none := rfl

lemma selectLoop_succ (h : Nat) (li : Int) (search : Bool)
    (startA firstA lastA : Nat) (scripts : Nat → AttemptScript)
    (fuel cur k : Nat) :
    selectLoop h li search startA firstA lastA scripts (fuel + 1) cur k =
      match (attemptAddressF h li cur false (scripts k)).1 with
      | .ok _ => some (.success cur, [(cur, (attemptAddressF h li cur false (scripts k)).2)])
      | .error _ =>
        if search then
          if advance firstA lastA cur = startA then
            some (.exhausted, [(cur, (attemptAddressF h li cur false (scripts k)).2)])
          else
            (selectLoop h li search startA firstA lastA scripts fuel
              (advance firstA lastA cur) (k + 1)).map
              (fun o => (o.1, (cur, (attemptAddressF h li cur false (scripts k)).2) :: o.2))
        else
          (selectLoop h li search startA firstA lastA scripts fuel cur
            (k + 1)).map
            (fun o => (o.1, (cur, (attemptAddressF h li cur false (scripts k)).2) :: o.2)) := rfl

lemma candList_mem (lo hi startA : Nat) (hlo : lo ≤ hi) (hs1 : lo ≤ startA)
    (hs2 : startA ≤ hi) :
    ∀ q c, lo ≤ c → c ≤ hi → q ≤ remSteps lo hi startA c →
      ∀ x, x ∈ candList lo hi c q ↔
        (lo ≤ x ∧ x ≤ hi ∧ remSteps lo hi startA c - q < remSteps lo hi startA x ∧
          remSteps lo hi startA x ≤ remSteps lo hi startA c) := by
  intro q
  induction q with
  | zero =>
    intro c h1 h2 hq x
    simp only [candList, List.not_mem_nil, false_iff]
    intro hcon
    omega
  | succ q ih =>
    intro c h1 h2 hq x
    obtain ⟨hrc1, hrc2⟩ := remSteps_bounds lo hi startA c hlo hs1 hs2 h1 h2
    obtain ⟨hst1, hst2⟩ := stepCand_range lo hi c hlo h1 h2
    simp only [candList, List.mem_cons]
    by_cases hq0 : q = 0
    · subst hq0
      simp only [candList, List.not_mem_nil, or_false]
      constructor
      · rintro rfl
        omega
      · rintro ⟨hx1, hx2, hx3, hx4⟩
        have : remSteps lo hi startA x = remSteps lo hi startA c := by omega
        exact (remSteps_inj lo hi startA x c hlo hs1 hs2 hx1 hx2 h1 h2 this).symm ▸ rfl
    · have hr2 : 2 ≤ remSteps lo hi startA c := by omega
      have hstep := remSteps_step lo hi startA c hlo hs1 hs2 h1 h2 hr2
      have ihx := ih (stepCand lo hi c) hst1 hst2 (by omega) x
      rw [ihx]
      constructor
      · rintro (rfl | ⟨hx1, hx2, hx3, hx4⟩)
        · omega
        · omega
      · rintro ⟨hx1, hx2, hx3, hx4⟩
        by_cases hxc : remSteps lo hi startA x = remSteps lo hi startA c
        · left
          exact remSteps_inj lo hi startA x c hlo hs1 hs2 hx1 hx2 h1 h2 hxc
        · right
          omega

lemma candList_nodup (lo hi startA : Nat) (hlo : lo ≤ hi) (hs1 : lo ≤ startA)
    (hs2 : startA ≤ hi) :
    ∀ q c, lo ≤ c → c ≤ hi → q ≤ remSteps lo hi startA c →
      (candList lo hi c q).Nodup := by
  intro q
  induction q with
  | zero => intro c _ _ _; simp [candList]
  | succ q ih =>
    intro c h1 h2 hq
    obtain ⟨hst1, hst2⟩ := stepCand_range lo hi c hlo h1 h2
    obtain ⟨hrc1, hrc2⟩ := remSteps_bounds lo hi startA c hlo hs1 hs2 h1 h2
    simp only [candList, List.nodup_cons]
    constructor
    · intro hmem
      by_cases hq0 : q = 0
      · subst hq0; simp [candList] at hmem
      · have hr2 : 2 ≤ remSteps lo hi startA c := by omega
        have hstep := remSteps_step lo hi startA c hlo hs1 hs2 h1 h2 hr2
        rw [candList_mem lo hi startA hlo hs1 hs2 q (stepCand lo hi c) hst1
          hst2 (by omega) c] at hmem
        omega
    · by_cases hq0 : q = 0
      · subst hq0; simp [candList]
      · have hr2 : 2 ≤ remSteps lo hi startA c := by omega
        have hstep := remSteps_step lo hi startA c hlo hs1 hs2 h1 h2 hr2
        exact ih (stepCand lo hi c) hst1 hst2 (by omega)

lemma attempt_err_of_inUse (h : Nat) (li : Int) (ip : Nat) (s : AttemptScript)
    (hs : inUseScript s) : ∃ e, (attempt h li ip false s).1 = .error e := by
  obtain ⟨rs, hpre, hn⟩ := hs
  unfold attempt
  by_cases h1 : ip = firstAddr h ip
  · exact ⟨.networkID, by rw [if_neg (by decide : ¬(false = true)), if_pos h1]⟩
  · by_cases h2 : ip = lastAddr h ip
    · exact ⟨.broadcast,
        by rw [if_neg (by decide : ¬(false = true)), if_neg h1, if_pos h2]⟩
    · exact ⟨.inUse, by simp [h1, h2, hpre, hn]⟩

lemma attempt_err_of_addFail (h : Nat) (li : Int) (ip : Nat)
    (s : AttemptScript) (hpre : s.preQuery = .ok []) (hadd : s.addOk = false) :
    ∃ e, (attempt h li ip false s).1 = .error e := by
  unfold attempt
  by_cases h1 : ip = firstAddr h ip
  · exact ⟨.networkID, by rw [if_neg (by decide : ¬(false = true)), if_pos h1]⟩
  · by_cases h2 : ip = lastAddr h ip
    · exact ⟨.broadcast,
        by rw [if_neg (by decide : ¬(false = true)), if_neg h1, if_pos h2]⟩
    · exact ⟨.addErr, by simp [h1, h2, hpre, hadd, numRoutesOfList]⟩

lemma newLoop_succ_ok (h : Nat) (li : Int) (search : Bool)
    (startA firstA lastA : Nat) (scripts : Nat → AttemptScript)
    (fuel cur k : Nat) (u : Unit)
    (he : (attempt h li cur false (scripts k)).1 = .ok u) :
    newLoop h li search startA firstA lastA scripts (fuel + 1) cur k =
      some (.success cur, [(cur, (attempt h li cur false (scripts k)).2)]) := by
  rw [newLoop_succ, he]

lemma newLoop_succ_stop (h : Nat) (li : Int) (startA firstA lastA : Nat)
    (scripts : Nat → AttemptScript) (fuel cur k : Nat) (e : AErr)
    (he : (attempt h li cur false (scripts k)).1 = .error e)
    (hstop : advance firstA lastA cur = startA) :
    newLoop h li true startA firstA lastA scripts (fuel + 1) cur k =
      some (.exhausted, [(cur, (attempt h li cur false (scripts k)).2)]) := by
  rw [newLoop_succ, he]
  simp [hstop]

lemma newLoop_succ_go (h : Nat) (li : Int) (startA firstA lastA : Nat)
    (scripts : Nat → AttemptScript) (fuel cur k : Nat) (e : AErr)
    (he : (attempt h li cur false (scripts k)).1 = .error e)
    (hstop : advance firstA lastA cur ≠ startA) :
    newLoop h li true startA firstA lastA scripts (fuel + 1) cur k =
      (newLoop h li true startA firstA lastA scripts fuel
        (advance firstA lastA cur) (k + 1)).map
        (fun o => (o.1, (cur, (attempt h li cur false (scripts k)).2) :: o.2)) := by
  rw [newLoop_succ, he]
  simp [hstop]

lemma newLoop_succ_pinned (h : Nat) (li : Int) (startA firstA lastA : Nat)
    (scripts : Nat → AttemptScript) (fuel cur k : Nat) (e : AErr)
    (he : (attempt h li cur false (scripts k)).1 = .error e) :
    newLoop h li false startA firstA lastA scripts (fuel + 1) cur k =
      (newLoop h li false startA firstA lastA scripts fuel cur (k + 1)).map
        (fun o => (o.1, (cur, (attempt h li cur false (scripts k)).2) :: o.2)) := by
  rw [newLoop_succ, he]
  simp

lemma newLoop_exhaust (h : Nat) (li : Int) (scripts : Nat → AttemptScript)
    (lo hi startA firstA lastA : Nat) (hfa : ipAdd firstA 1 = lo)
    (hla : lastA = hi + 1) (hw : hi + 1 < W) (hlo : lo ≤ hi)
    (hs1 : lo ≤ startA) (hs2 : startA ≤ hi)
    (herr : ∀ j ip, ∃ e, (attempt h li ip false (scripts j)).1 = .error e) :
    ∀ q cur k fuel, 1 ≤ q → q = remSteps lo hi startA cur → lo ≤ cur →
      cur ≤ hi → q ≤ fuel →
      ∃ tr, newLoop h li true startA firstA lastA scripts fuel cur k =
          some (.exhausted, tr) ∧
        tr.map Prod.fst = candList lo hi cur q := by
  intro q
  induction q with
  | zero => intro cur k fuel h1; omega
  | succ q ih =>
    intro cur k fuel hq1 hq2 hc1 hc2 hfuel
    obtain ⟨f, rfl⟩ : ∃ f, fuel = f + 1 := ⟨fuel - 1, by omega⟩
    obtain ⟨e, he⟩ := herr k cur
    have hadv := advance_eq_step lo hi firstA lastA cur hfa hla hw hc1 hc2
    obtain ⟨hst1, hst2⟩ := stepCand_range lo hi cur hlo hc1 hc2
    by_cases hstep : stepCand lo hi cur = startA
    · have hr1 : remSteps lo hi startA cur = 1 :=
        (remSteps_one_iff lo hi startA cur hlo hs1 hs2 hc1 hc2).mpr hstep
      have hq0 : q = 0 := by omega
      subst hq0
      refine ⟨[(cur, (attempt h li cur false (scripts k)).2)], ?_, ?_⟩
      · exact newLoop_succ_stop h li startA firstA lastA scripts f cur k e he
          (by rw [hadv, hstep])
      · simp [candList]
    · have hr2 : 2 ≤ remSteps lo hi startA cur := by
        have hiff := remSteps_one_iff lo hi startA cur hlo hs1 hs2 hc1 hc2
        have hb := remSteps_bounds lo hi startA cur hlo hs1 hs2 hc1 hc2
        omega
      have hstepr := remSteps_step lo hi startA cur hlo hs1 hs2 hc1 hc2 hr2
      obtain ⟨tr, htr, hmap⟩ :=
        ih (stepCand lo hi cur) (k + 1) f (by omega) (by omega) hst1 hst2
          (by omega)
      refine ⟨(cur, (attempt h li cur false (scripts k)).2) :: tr, ?_, ?_⟩
      · rw [newLoop_succ_go h li startA firstA lastA scripts f cur k e he
          (by rw [hadv]; exact hstep), hadv, htr]
        rfl
      · simp [candList, hmap]

lemma newLoop_range (h : Nat) (li : Int) (scripts : Nat → AttemptScript)
    (lo hi startA firstA lastA : Nat) (hfa : ipAdd firstA 1 = lo)
    (hla : lastA = hi + 1) (hw : hi + 1 < W) (hlo : lo ≤ hi) :
    ∀ fuel cur k out tr, lo ≤ cur → cur ≤ hi →
      newLoop h li true startA firstA lastA scripts fuel cur k =
        some (out, tr) →
      ∀ x ∈ tr.map Prod.fst, lo ≤ x ∧ x ≤ hi := by
  intro fuel
  induction fuel with
  | zero => intro cur k out tr _ _ hcon; simp [newLoop_zero] at hcon
  | succ fuel ih =>
    intro cur k out tr hc1 hc2 hrun x hx
    have hadv := advance_eq_step lo hi firstA lastA cur hfa hla hw hc1 hc2
    obtain ⟨hst1, hst2⟩ := stepCand_range lo hi cur hlo hc1 hc2
    rcases hres : (attempt h li cur false (scripts k)).1 with e | u
    · by_cases hstop : advance firstA lastA cur = startA
      · rw [newLoop_succ_stop h li startA firstA lastA scripts fuel cur k e
          hres hstop] at hrun
        simp only [Option.some.injEq, Prod.mk.injEq] at hrun
        obtain ⟨ho, htr⟩ := hrun
        rw [← htr] at hx
        simp only [List.map_cons, List.map_nil, List.mem_singleton] at hx
        omega
      · rw [newLoop_succ_go h li startA firstA lastA scripts fuel cur k e
          hres hstop] at hrun
        rcases hmap : newLoop h li true startA firstA lastA scripts fuel
            (advance firstA lastA cur) (k + 1) with _ | p
        · rw [hmap, Option.map_none'] at hrun; exact Option.noConfusion hrun
        · rw [hmap] at hrun
          simp only [Option.map_some', Option.some.injEq, Prod.mk.injEq]
            at hrun
          obtain ⟨ho, htr⟩ := hrun
          rw [← htr] at hx
          simp only [List.map_cons, List.mem_cons] at hx
          rcases hx with rfl | hx
          · omega
          · exact ih (advance firstA lastA cur) (k + 1) p.1 p.2
              (hadv ▸ hst1) (hadv ▸ hst2) (by rw [hmap]) x hx
    · rw [newLoop_succ_ok h li true startA firstA lastA scripts fuel cur k u
        hres] at hrun
      simp only [Option.some.injEq, Prod.mk.injEq] at hrun
      obtain ⟨ho, htr⟩ := hrun
      rw [← htr] at hx
      simp only [List.map_cons, List.map_nil, List.mem_singleton] at hx
      omega

lemma NewRun_search_eq (h reqIP randStart xf xl : Nat) (li : Int)
    (scripts : Nat → AttemptScript) (fuel : Nat)
    (hb : reqIP % 2 ^ h = 0) (hW : reqIP + 2 ^ h ≤ W)
    (hpow : 3 ≤ 2 ^ h) (hr1 : reqIP ≤ randStart)
    (hr2 : randStart < reqIP + 2 ^ h) (hxl : xl + 2 ≤ 2 ^ h)
    (hxf : xf + 1 ≤ 2 ^ h) :
    NewRun h reqIP randStart xf xl li scripts fuel =
      newLoop h li true randStart (reqIP + xf) (reqIP + 2 ^ h - 1 - xl)
        scripts fuel randStart 0 := by
  unfold NewRun
  rw [if_pos (firstAddr_self_of_aligned h reqIP hb).symm]
  rw [firstAddr_of_aligned h reqIP randStart hb hr1 hr2,
    lastAddr_of_aligned h reqIP randStart hb hr1 hr2,
    ipAdd_nat reqIP xf (by omega),
    ipAdd_neg (reqIP + 2 ^ h - 1) xl (by omega) (by omega)]

/-- Claim C6: for every subnet and exclusion zone whose eligible range has
size N, a search-mode allocation against a gateway reporting every queried
candidate as already in use attempts each eligible address exactly once —
N attempts in total, starting from the random start address and walking the
increment-with-roll-over successor — and then terminates with the
exhausted-address-space error. -/
theorem claim6_search_exhausts_after_N (h reqIP randStart xf xl : Nat)
    (li : Int) (scripts : Nat → AttemptScript) (fuel : Nat)
    (hb : reqIP % 2 ^ h = 0) (hW : reqIP + 2 ^ h ≤ W)
    (hlo : reqIP + 1 + xf ≤ reqIP + 2 ^ h - 2 - xl)
    (hs1 : reqIP + 1 + xf ≤ randStart)
    (hs2 : randStart ≤ reqIP + 2 ^ h - 2 - xl)
    (hiu : ∀ k, inUseScript (scripts k))
    (hfuel : 2 ^ h - 2 - xf - xl ≤ fuel) :
    ∃ tr, NewRun h reqIP randStart xf xl li scripts fuel =
        some (.exhausted, tr) ∧
      tr.map Prod.fst =
        candList (reqIP + 1 + xf) (reqIP + 2 ^ h - 2 - xl) randStart
          (2 ^ h - 2 - xf - xl) ∧
      (tr.map Prod.fst).length = 2 ^ h - 2 - xf - xl ∧
      (tr.map Prod.fst).Nodup ∧
      ∀ x, x ∈ tr.map Prod.fst ↔
        (reqIP + 1 + xf ≤ x ∧ x ≤ reqIP + 2 ^ h - 2 - xl) := by
  have hpow : 3 ≤ 2 ^ h := by omega
  rw [NewRun_search_eq h reqIP randStart xf xl li scripts fuel hb hW hpow
    (by omega) (by omega) (by omega) (by omega)]
  have hfa : ipAdd (reqIP + xf) 1 = reqIP + 1 + xf := by
    rw [ipAdd_one _ (by omega)]; omega
  have hla : reqIP + 2 ^ h - 1 - xl = (reqIP + 2 ^ h - 2 - xl) + 1 := by omega
  have hw : (reqIP + 2 ^ h - 2 - xl) + 1 < W := by omega
  have herr : ∀ j ip, ∃ e, (attempt h li ip false (scripts j)).1 = .error e :=
    fun j ip => attempt_err_of_inUse h li ip (scripts j) (hiu j)
  have hq : 2 ^ h - 2 - xf - xl =
      remSteps (reqIP + 1 + xf) (reqIP + 2 ^ h - 2 - xl) randStart randStart := by
    rw [remSteps_self _ _ _ hs1]; omega
  obtain ⟨tr, htr, hmap⟩ := newLoop_exhaust h li scripts (reqIP + 1 + xf)
    (reqIP + 2 ^ h - 2 - xl) randStart (reqIP + xf) (reqIP + 2 ^ h - 1 - xl)
    hfa hla hw hlo hs1 hs2 herr (2 ^ h - 2 - xf - xl) randStart 0 fuel
    (by omega) hq hs1 hs2 hfuel
  refine ⟨tr, htr, hmap, ?_, ?_, ?_⟩
  · rw [hmap, candList_length]
  · rw [hmap]
    exact candList_nodup (reqIP + 1 + xf) (reqIP + 2 ^ h - 2 - xl) randStart
      hlo hs1 hs2 (2 ^ h - 2 - xf - xl) randStart hs1 hs2 (by omega)
  · intro x
    rw [hmap, candList_mem (reqIP + 1 + xf) (reqIP + 2 ^ h - 2 - xl) randStart
      hlo hs1 hs2 (2 ^ h - 2 - xf - xl) randStart hs1 hs2 (by omega) x]
    constructor
    · rintro ⟨hx1, hx2, _, _⟩; exact ⟨hx1, hx2⟩
    · rintro ⟨hx1, hx2⟩
      have hbx := remSteps_bounds (reqIP + 1 + xf) (reqIP + 2 ^ h - 2 - xl)
        randStart x hlo hs1 hs2 hx1 hx2
      have hbs := remSteps_self (reqIP + 1 + xf) (reqIP + 2 ^ h - 2 - xl)
        randStart hs1
      refine ⟨hx1, hx2, ?_, ?_⟩ <;> omega

/-- Witness for C6 on the subnet 10.0.0.0/30-analogue with base 0, host
bits 2, no exclusions: eligible range {1, 2}, start 1, two attempts, then
exhaustion. -/
theorem claim6_search_exhausts_after_N_witness :
    ∃ tr, NewRun 2 0 1 0 0 7 iuScripts 2 = some (.exhausted, tr) ∧
      tr.map Prod.fst = candList 1 2 1 2 ∧
      (tr.map Prod.fst).length = 2 ∧
      (tr.map Prod.fst).Nodup ∧
      ∀ x, x ∈ tr.map Prod.fst ↔ (1 ≤ x ∧ x ≤ 2) := by
  have hres := claim6_search_exhausts_after_N 2 0 1 0 0 7 iuScripts 2
    (by decide) (by norm_num [W]) (by decide) (by decide) (by decide)
    (fun k => ⟨[⟨false, 1⟩], rfl, by decide⟩) (by decide)
  exact hres

/-- Claim C7: in a search-mode allocation over a subnet with a non-empty
eligible range, every candidate the session ever attempts lies within
[networkID + 1 + excludeFirst, broadcast − 1 − excludeLast] inclusive, and
in particular never equals the network ID or the broadcast address. -/
theorem claim7_candidates_in_eligible_range (h reqIP randStart xf xl : Nat)
    (li : Int) (scripts : Nat → AttemptScript) (fuel : Nat)
    (out : SessionOut) (tr : List (Nat × List Op))
    (hb : reqIP % 2 ^ h = 0) (hW : reqIP + 2 ^ h ≤ W)
    (hlo : reqIP + 1 + xf ≤ reqIP + 2 ^ h - 2 - xl)
    (hs1 : reqIP + 1 + xf ≤ randStart)
    (hs2 : randStart ≤ reqIP + 2 ^ h - 2 - xl)
    (hrun : NewRun h reqIP randStart xf xl li scripts fuel = some (out, tr)) :
    ∀ x ∈ tr.map Prod.fst,
      reqIP + 1 + xf ≤ x ∧ x ≤ reqIP + 2 ^ h - 2 - xl ∧
        x ≠ reqIP ∧ x ≠ reqIP + 2 ^ h - 1 := by
  have hpow : 3 ≤ 2 ^ h := by omega
  rw [NewRun_search_eq h reqIP randStart xf xl li scripts fuel hb hW hpow
    (by omega) (by omega) (by omega) (by omega)] at hrun
  have hfa : ipAdd (reqIP + xf) 1 = reqIP + 1 + xf := by
    rw [ipAdd_one _ (by omega)]; omega
  have hla : reqIP + 2 ^ h - 1 - xl = (reqIP + 2 ^ h - 2 - xl) + 1 := by omega
  have hw : (reqIP + 2 ^ h - 2 - xl) + 1 < W := by omega
  intro x hx
  have hr := newLoop_range h li scripts (reqIP + 1 + xf)
    (reqIP + 2 ^ h - 2 - xl) randStart (reqIP + xf) (reqIP + 2 ^ h - 1 - xl)
    hfa hla hw hlo fuel randStart 0 out tr hs1 hs2 hrun x hx
  refine ⟨hr.1, hr.2, ?_, ?_⟩ <;> omega

/-- Witness for C7: with base 0, host bits 2, no exclusions and an always
in-use gateway, the concrete run attempts exactly the candidates 1 and 2,
and the first of them lies in the eligible range and differs from the
network ID 0 and the broadcast 3. -/
theorem claim7_candidates_in_eligible_range_witness :
    NewRun 2 0 1 0 0 7 iuScripts 2 =
      some (.exhausted, [(1, [Op.query true]), (2, [Op.query true])]) ∧
      (1 ≤ 1 ∧ 1 ≤ 2 ∧ 1 ≠ 0 ∧ 1 ≠ 3) := by
  constructor
  · decide
  · exact claim7_candidates_in_eligible_range 2 0 1 0 0 7 iuScripts 2
      .exhausted [(1, [Op.query true]), (2, [Op.query true])] (by decide)
      (by norm_num [W]) (by decide) (by decide) (by decide) (by decide) 1
      (by decide)

lemma c8loop_none : ∀ fuel cur k,
    newLoop 2 (-1) true 2 2 2 iuScripts fuel cur k = none := by
  intro fuel
  induction fuel with
  | zero => intro cur k; rfl
  | succ fuel ih =>
    intro cur k
    obtain ⟨e, he⟩ := attempt_err_of_inUse 2 (-1) cur (iuScripts k)
      ⟨[⟨false, 1⟩], rfl, by decide⟩
    have hstop : advance 2 2 cur ≠ 2 := by
      simp only [advance]
      split_ifs with hc
      · decide
      · exact hc
    rw [newLoop_succ_go 2 (-1) 2 2 2 iuScripts fuel cur k e he hstop, ih,
      Option.map_none']

/-- Claim C8 (refuted): on a subnet with host bits 2 and exclusions
excludeFirst = 2, excludeLast = 1 the eligible range is empty; with the
random start at 2 (= broadcast − excludeLast) and a gateway reporting every
candidate in use, the search loop of `address.New` never terminates — for
every fuel bound it is still running — instead of failing deterministically
with the exhaustion error. -/
theorem claim8_empty_range_nonterminating (fuel : Nat) :
    NewRun 2 0 2 2 1 (-1) iuScripts fuel = none := by
  unfold NewRun
  rw [if_pos (by decide : (0 : Nat) = firstAddr 2 0)]
  have h1 : ipAdd (firstAddr 2 2) ((2 : Nat) : Int) = 2 := by decide
  have h2 : ipAdd (lastAddr 2 2) (-((1 : Nat) : Int)) = 2 := by decide
  rw [h1, h2]
  exact c8loop_none fuel 2 0

lemma attempt_addErr_eq (h : Nat) (li : Int) (ip : Nat) (s : AttemptScript)
    (h1 : ip ≠ firstAddr h ip) (h2 : ip ≠ lastAddr h ip)
    (hpre : s.preQuery = .ok []) (hadd : s.addOk = false) :
    attempt h li ip false s =
      (.error .addErr, [.query true, .add li false]) := by
  unfold attempt
  simp [h1, h2, hpre, hadd, numRoutesOfList]

lemma newLoop_pinned_none (h : Nat) (li : Int) (startA firstA lastA : Nat)
    (scripts : Nat → AttemptScript) (cur : Nat)
    (herr : ∀ j, ∃ e, (attempt h li cur false (scripts j)).1 = .error e) :
    ∀ fuel k,
      newLoop h li false startA firstA lastA scripts fuel cur k = none := by
  intro fuel
  induction fuel with
  | zero => intro k; rfl
  | succ fuel ih =>
    intro k
    obtain ⟨e, he⟩ := herr k
    rw [newLoop_succ_pinned h li startA firstA lastA scripts fuel cur k e he,
      ih, Option.map_none']

/-- Claim C5 (amended): fatal-class attempt errors do not propagate out of
the session loop of `address.New`.  When the very first attempt fails with a
route mutation failure (`RouteAdd` rejected) and every subsequent attempt
does too, the search session does not return that error and does not stop:
it advances through every remaining eligible candidate and terminates with
the exhaustion outcome after the full lap. -/
theorem claim5_mutation_failure_is_retried (h reqIP randStart xf xl : Nat)
    (li : Int) (scripts : Nat → AttemptScript) (fuel : Nat)
    (hb : reqIP % 2 ^ h = 0) (hW : reqIP + 2 ^ h ≤ W)
    (hlo : reqIP + 1 + xf ≤ reqIP + 2 ^ h - 2 - xl)
    (hs1 : reqIP + 1 + xf ≤ randStart)
    (hs2 : randStart ≤ reqIP + 2 ^ h - 2 - xl)
    (hsc : ∀ k, (scripts k).preQuery = .ok [] ∧ (scripts k).addOk = false)
    (hfuel : 2 ^ h - 2 - xf - xl ≤ fuel) :
    (attempt h li randStart false (scripts 0)).1 = .error .addErr ∧
    ∃ tr, NewRun h reqIP randStart xf xl li scripts fuel =
        some (.exhausted, tr) ∧
      tr.length = 2 ^ h - 2 - xf - xl := by
  have hpow : 3 ≤ 2 ^ h := by omega
  have hfirst : firstAddr h randStart = reqIP :=
    firstAddr_of_aligned h reqIP randStart hb (by omega) (by omega)
  have hlast : lastAddr h randStart = reqIP + 2 ^ h - 1 :=
    lastAddr_of_aligned h reqIP randStart hb (by omega) (by omega)
  constructor
  · rw [attempt_addErr_eq h li randStart (scripts 0) (by omega) (by omega)
      (hsc 0).1 (hsc 0).2]
  · rw [NewRun_search_eq h reqIP randStart xf xl li scripts fuel hb hW hpow
      (by omega) (by omega) (by omega) (by omega)]
    have hfa : ipAdd (reqIP + xf) 1 = reqIP + 1 + xf := by
      rw [ipAdd_one _ (by omega)]; omega
    have hla : reqIP + 2 ^ h - 1 - xl = (reqIP + 2 ^ h - 2 - xl) + 1 := by
      omega
    have hw : (reqIP + 2 ^ h - 2 - xl) + 1 < W := by omega
    have herr : ∀ j ip, ∃ e, (attempt h li ip false (scripts j)).1 =
        .error e :=
      fun j ip => attempt_err_of_addFail h li ip (scripts j) (hsc j).1 (hsc j).2
    have hq : 2 ^ h - 2 - xf - xl =
        remSteps (reqIP + 1 + xf) (reqIP + 2 ^ h - 2 - xl) randStart
          randStart := by
      rw [remSteps_self _ _ _ hs1]; omega
    obtain ⟨tr, htr, hmap⟩ := newLoop_exhaust h li scripts (reqIP + 1 + xf)
      (reqIP + 2 ^ h - 2 - xl) randStart (reqIP + xf)
      (reqIP + 2 ^ h - 1 - xl) hfa hla hw hlo hs1 hs2 herr
      (2 ^ h - 2 - xf - xl) randStart 0 fuel (by omega) hq hs1 hs2 hfuel
    refine ⟨tr, htr, ?_⟩
    have hlen := candList_length (reqIP + 1 + xf) (reqIP + 2 ^ h - 2 - xl)
      (2 ^ h - 2 - xf - xl) randStart
    rw [← hmap, List.length_map] at hlen
    exact hlen

/-- Witness for the amended C5: base 0, host bits 2, no exclusions, start 1;
the first attempt fails with the route mutation error, yet the session
attempts both eligible candidates and exhausts. -/
theorem claim5_mutation_failure_is_retried_witness :
    (attempt 2 7 1 false (addFailScripts 0)).1 = .error .addErr ∧
    ∃ tr, NewRun 2 0 1 0 0 7 addFailScripts 2 = some (.exhausted, tr) ∧
      tr.length = 2 := by
  exact claim5_mutation_failure_is_retried 2 0 1 0 0 7 addFailScripts 2
    (by decide) (by norm_num [W]) (by decide) (by decide) (by decide)
    (fun k => ⟨rfl, rfl⟩) (by decide)

/-- Counterexample to C5 as stated: the first attempt of this concrete
search run fails with a route mutation failure (`RouteAdd` rejected, a
fatal-class error per the spec), yet the session does not propagate it: it
advances and performs a second attempt at candidate 2 and finally returns
the exhaustion outcome, not the mutation error. -/
theorem claim5_counterexample :
    (attempt 2 7 1 false (c5Scripts 0)).1 = .error .addErr ∧
    NewRun 2 0 1 0 0 7 c5Scripts 4 =
      some (.exhausted,
        [(1, [Op.query true, Op.add 7 false]), (2, [Op.query true])]) := by
  constructor
  · decide
  · decide

/-- Claim C1: for an attempt whose pre-claim query reports zero routes and
whose route insertion succeeds, the re-verification of `Address.attempt`
maps the re-query result as the spec states: zero routes gives the
route-vanished error; exactly one route with a single path gives success,
and `address.New` then returns an address record holding the attempted
candidate; more than one route, or one route with multiple paths, issues a
deletion of this process's host route and returns the race-lost error. -/
theorem claim1_reverify_mapping (h : Nat) (li : Int) (ip : Nat)
    (s : AttemptScript) (xf xl randStart : Nat)
    (h1 : ip ≠ firstAddr h ip) (h2 : ip ≠ lastAddr h ip)
    (hpre : s.preQuery = .ok []) (hadd : s.addOk = true)
    (hdel : s.delOk = true) :
    (s.reQuery = .ok [] →
      attempt h li ip false s =
        (.error .vanished, [.query true, .add li true, .query true])) ∧
    (∀ r : RouteInfo, s.reQuery = .ok [r] → r.multiPath ≤ 1 →
      attempt h li ip false s =
        (.ok (), [.query true, .add li true, .query true]) ∧
      ∀ scripts : Nat → AttemptScript, ∀ fuel : Nat, scripts 0 = s →
        NewRun h ip randStart xf xl li scripts (fuel + 1) =
          some (.success ip,
            [(ip, [.query true, .add li true, .query true])])) ∧
    (∀ rs : List RouteInfo, s.reQuery = .ok rs →
      (1 < rs.length ∨ ∃ r, rs = [r] ∧ 1 < r.multiPath) →
      attempt h li ip false s =
        (.error .raceLost,
          [.query true, .add li true, .query true, .del li true])) := by
  refine ⟨?_, ?_, ?_⟩
  · intro hrq
    unfold attempt
    simp [h1, h2, hpre, hadd, hrq, numRoutesOfList]
  · intro r hrq hmp
    have hn : numRoutesOfList [r] = 1 := by
      simp only [numRoutesOfList]
      split_ifs <;> simp_all <;> omega
    have hatt : attempt h li ip false s =
        (.ok (), [.query true, .add li true, .query true]) := by
      unfold attempt
      simp [h1, h2, hpre, hadd, hrq, hn]
      decide
    refine ⟨hatt, ?_⟩
    intro scripts fuel hsc0
    unfold NewRun
    rw [if_neg h1]
    have he : (attempt h li ip false (scripts 0)).1 = .ok () := by
      rw [hsc0, hatt]
    rw [newLoop_succ_ok h li false 0 0 0 scripts fuel ip 0 () he, hsc0, hatt]
  · intro rs hrq hcase
    have hn : 1 < numRoutesOfList rs := by
      rcases hcase with hlen | ⟨r, rfl, hmp⟩
      · simp only [numRoutesOfList]
        split_ifs with hx
        · omega
        · omega
      · simp only [numRoutesOfList]
        split_ifs <;> simp_all
    have hn1 : ¬ (numRoutesOfList rs < 1) := by omega
    have hn2 : ¬ (numRoutesOfList rs = 1) := by omega
    unfold attempt
    simp [h1, h2, hpre, hadd, hrq, hn1, hn2, hdel]
    decide

/-- Witness for C1: the uncontended claim on candidate 1 succeeds, and the
pinned session returns the record holding exactly that candidate. -/
theorem claim1_reverify_mapping_witness :
    attempt 2 7 1 false freeThenOursScript =
      (.ok (), [.query true, .add 7 true, .query true]) ∧
    NewRun 2 1 0 0 0 7 freeThenOursScripts 1 =
      some (.success 1, [(1, [.query true, .add 7 true, .query true])]) := by
  have hth := claim1_reverify_mapping 2 7 1 freeThenOursScript 0 0 0
    (by decide) (by decide) rfl rfl rfl
  obtain ⟨-, hmid, -⟩ := hth
  obtain ⟨ha, hb⟩ := hmid ⟨true, 0⟩ rfl (by decide)
  exact ⟨ha, hb freeThenOursScripts 0 rfl⟩

lemma numRoutesOfList_eq_zero_iff (rs : List RouteInfo) :
    numRoutesOfList rs = 0 ↔ rs = [] := by
  cases rs with
  | nil => simp [numRoutesOfList]
  | cons a t =>
    cases t with
    | nil =>
      simp only [numRoutesOfList]
      split_ifs <;> simp_all
    | cons b t2 => simp [numRoutesOfList]

/-- Claim C2 (amended): for `Address.attempt` (the method copy), provided
any rollback deletion the attempt issues succeeds, every failing return
either performed no successful route insertion, or issued a successful
deletion of the inserted host route, or its re-verification reported zero
routes (the inserted route no longer present in the table).  The
free-function copy `attemptAddress` violates even this amended property
(see the counterexample). -/
theorem claim2_no_route_left_behind (h : Nat) (li : Int) (ip : Nat)
    (s : AttemptScript) (hdel : s.delOk = true) (e : AErr)
    (herr : (attempt h li ip false s).1 = .error e) :
    hasAdd (attempt h li ip false s).2 = false ∨
    hasSuccessfulDel (attempt h li ip false s).2 = true ∨
    s.reQuery = .ok [] := by
  by_cases h1 : ip = firstAddr h ip
  · left
    unfold attempt
    rw [if_neg (by decide : ¬(false = true)), if_pos h1]
    decide
  · by_cases h2 : ip = lastAddr h ip
    · left
      unfold attempt
      rw [if_neg (by decide : ¬(false = true)), if_neg h1, if_pos h2]
      decide
    · rcases hpre : s.preQuery with u | rs
      · left
        unfold attempt
        simp [h1, h2, hpre, hasAdd]
      · by_cases hn : numRoutesOfList rs > 0
        · left
          unfold attempt
          simp [h1, h2, hpre, hn, hasAdd]
        · rcases hadd : s.addOk with _ | _
          · left
            unfold attempt
            simp [h1, h2, hpre, hn, hadd, hasAdd]
          · rcases hrq : s.reQuery with u2 | rs2
            · right; left
              unfold attempt
              simp [h1, h2, hpre, hn, hadd, hrq, hdel, hasSuccessfulDel]
            · by_cases hv : numRoutesOfList rs2 < 1
              · right; right
                have hrs2 : rs2 = [] :=
                  (numRoutesOfList_eq_zero_iff rs2).mp (by omega)
                rw [hrs2]
              · by_cases hone : numRoutesOfList rs2 = 1
                · exfalso
                  have hval : (attempt h li ip false s).1 = .ok () := by
                    unfold attempt
                    simp [h1, h2, hpre, hn, hadd, hrq, hv, hone]
                  rw [hval] at herr
                  exact Except.noConfusion herr
                · right; left
                  unfold attempt
                  simp [h1, h2, hpre, hn, hadd, hrq, hv, hone, hdel,
                    hasSuccessfulDel]

/-- Witness for the amended C2: the race-lost path inserts and then
successfully deletes its host route. -/
theorem claim2_no_route_left_behind_witness :
    hasAdd (attempt 2 7 1 false ⟨.ok [], true, .ok [⟨true, 0⟩, ⟨false, 0⟩], true⟩).2
        = false ∨
    hasSuccessfulDel
        (attempt 2 7 1 false ⟨.ok [], true, .ok [⟨true, 0⟩, ⟨false, 0⟩], true⟩).2
        = true ∨
    (⟨.ok [], true, .ok [⟨true, 0⟩, ⟨false, 0⟩], true⟩ : AttemptScript).reQuery
        = .ok [] :=
  claim2_no_route_left_behind 2 7 1
    ⟨.ok [], true, .ok [⟨true, 0⟩, ⟨false, 0⟩], true⟩ rfl .raceLost (by decide)

/-- Counterexample to C2 as stated: this `attemptAddress` run errors after a
successful insertion without ever issuing a deletion — the re-verification
response itself still lists the inserted route (the `ours` entry) as a
single plain route, which `numRoutesTo` miscounts as zero. -/
theorem claim2_counterexample :
    attemptAddressF 2 7 1 false freeThenOursScript =
      (.error .vanished, [.query true, .add 7 true, .query true]) ∧
    hasAdd (attemptAddressF 2 7 1 false freeThenOursScript).2 = true ∧
    hasSuccessfulDel (attemptAddressF 2 7 1 false freeThenOursScript).2 =
      false ∧
    freeThenOursScript.reQuery = .ok [⟨true, 0⟩] := by
  refine ⟨by decide, by decide, by decide, rfl⟩

/-- Claim C3 (code bug in `numRoutesTo`, functions.go:154-163): with exactly
one plain route (empty multipath list) already held for the candidate, the
method copy `Address.attempt` correctly fails with the in-use error and
performs no route mutation, but the free copy `attemptAddress` miscounts
the same response as zero routes, inserts a host route over the occupied
address, and returns the vanished error instead of the in-use error. -/
theorem claim3_free_copy_misses_in_use :
    attempt 2 7 1 false plainRouteScript = (.error .inUse, [.query true]) ∧
    hasMutation (attempt 2 7 1 false plainRouteScript).2 = false ∧
    attemptAddressF 2 7 1 false plainRouteScript =
      (.error .vanished, [.query true, .add 7 true, .query true]) ∧
    hasMutation (attemptAddressF 2 7 1 false plainRouteScript).2 = true ∧
    numRoutesOfList [⟨false, 0⟩] = 1 ∧
    numRoutesToOfList [⟨false, 0⟩] = 0 := by
  decide

lemma numRoutes_agree (rs : List RouteInfo)
    (hg : ∀ r, rs = [r] → r.multiPath ≠ 0) :
    numRoutesToOfList rs = numRoutesOfList rs := by
  cases rs with
  | nil => rfl
  | cons a t =>
    cases t with
    | nil => simp [numRoutesOfList, numRoutesToOfList, hg a rfl]
    | cons b t2 => rfl

lemma goodResp_of_length (rs : List RouteInfo) (hl : rs.length ≠ 1) :
    goodResp (.ok rs) := by
  intro r hr
  injection hr with h'
  subst h'
  simp at hl

lemma goodResp_singleton (r0 : RouteInfo) (hn : r0.multiPath ≠ 0) :
    goodResp (.ok [r0]) := by
  intro r hr
  injection hr with h'
  obtain rfl : r0 = r := by simpa using h'
  exact hn

lemma attempt_agree (h : Nat) (li : Int) (ip : Nat) (nilb : Bool)
    (s : AttemptScript) (hpre : goodResp s.preQuery)
    (hre : goodResp s.reQuery) :
    attemptAddressF h li ip nilb s = attempt h li ip nilb s := by
  have hpren : ∀ rs, s.preQuery = .ok rs →
      numRoutesToOfList rs = numRoutesOfList rs := by
    intro rs hrs
    exact numRoutes_agree rs (fun r hr => hpre r (by rw [hrs, hr]))
  have hren : ∀ rs, s.reQuery = .ok rs →
      numRoutesToOfList rs = numRoutesOfList rs := by
    intro rs hrs
    exact numRoutes_agree rs (fun r hr => hre r (by rw [hrs, hr]))
  unfold attemptAddressF attempt
  cases nilb
  · rcases hpq : s.preQuery with u | rs
    · simp [hpq]
    · have hn := hpren rs hpq
      rcases hrq : s.reQuery with u2 | rs2
      · simp [hpq, hrq, hn]
      · have hn2 := hren rs2 hrq
        simp [hpq, hrq, hn, hn2]
  · simp

lemma loop_agree (h : Nat) (li : Int) (search : Bool)
    (startA firstA lastA : Nat) (scripts : Nat → AttemptScript)
    (hg : ∀ k, goodResp (scripts k).preQuery ∧ goodResp (scripts k).reQuery) :
    ∀ fuel cur k,
      selectLoop h li search startA firstA lastA scripts fuel cur k =
        (newLoop h li search startA firstA lastA scripts fuel cur k).map
          (fun o => (toSelectOut o.1, o.2)) := by
  intro fuel
  induction fuel with
  | zero => intro cur k; rfl
  | succ fuel ih =>
    intro cur k
    rw [selectLoop_succ, newLoop_succ,
      attempt_agree h li cur false (scripts k) (hg k).1 (hg k).2]
    rcases hres : (attempt h li cur false (scripts k)).1 with e | u
    · cases search
      · rw [ih cur (k + 1)]
        rcases newLoop h li false startA firstA lastA scripts fuel cur
            (k + 1) with _ | p
        · simp
        · simp
      · by_cases hstop : advance firstA lastA cur = startA
        · simp [hstop, toSelectOut]
        · simp only [hstop, if_false, ite_false, Bool.false_eq_true,
            if_true, ite_true]
          rw [ih (advance firstA lastA cur) (k + 1)]
          rcases newLoop h li true startA firstA lastA scripts fuel
              (advance firstA lastA cur) (k + 1) with _ | p
          · simp [hstop]
          · simp [hstop]
    · simp [toSelectOut]

/-- Claim C4 (amended): the free-function copy (`SelectAddress` /
`attemptAddress` / `numRoutesTo`) and the method copy (`address.New` /
`Address.attempt` / `Address.numRoutes`) are observationally equivalent —
same gateway operation sequences and the same outcome — provided no route
query in the run answers with exactly one route carrying an empty multipath
list; on such a response the two route counters disagree (1 vs 0) and the
copies diverge (see the counterexample). -/
theorem claim4_copies_agree_on_good_scripts (h reqIP randStart xf xl : Nat)
    (li : Int) (rgResp : Except Unit (List RGRoute))
    (scripts : Nat → AttemptScript) (fuel : Nat)
    (hres : linkIndexFromIPNet rgResp = .ok li)
    (hg : ∀ k, goodResp (scripts k).preQuery ∧ goodResp (scripts k).reQuery) :
    SelectRun h reqIP randStart xf xl rgResp scripts fuel =
      (NewRun h reqIP randStart xf xl li scripts fuel).map
        (fun o => (toSelectOut o.1, o.2)) := by
  unfold SelectRun selectBody NewRun
  simp only [hres]
  by_cases hsearch : reqIP = firstAddr h reqIP
  · rw [if_pos hsearch, if_pos hsearch]
    exact loop_agree h li true randStart (ipAdd (firstAddr h randStart) xf)
      (ipAdd (lastAddr h randStart) (-(xl : Int))) scripts hg fuel randStart 0
  · rw [if_neg hsearch, if_neg hsearch]
    exact loop_agree h li false 0 0 0 scripts hg fuel reqIP 0

/-- Witness for the amended C4: on an uncontended run whose re-verification
reports a one-path multipath route, both copies succeed identically at the
first candidate. -/
theorem claim4_copies_agree_on_good_scripts_witness :
    SelectRun 2 0 1 0 0 (.ok [⟨none, 7⟩]) freeOkScripts 2 =
      (NewRun 2 0 1 0 0 7 freeOkScripts 2).map
        (fun o => (toSelectOut o.1, o.2)) := by
  exact claim4_copies_agree_on_good_scripts 2 0 1 0 0 7 (.ok [⟨none, 7⟩])
    freeOkScripts 2 (by decide)
    (fun k => ⟨goodResp_of_length [] (by decide),
      goodResp_singleton ⟨true, 1⟩ (by decide)⟩)

/-- Counterexample to C4 as stated: same subnet, same exclusions, same link
index, same start address, same gateway responses — yet the method copy
succeeds on candidate 2 while the free copy inserts a route the method copy
never inserts (on the occupied candidate 1) and ends exhausted.  The copies
are not observationally equivalent. -/
theorem claim4_counterexample :
    NewRun 2 0 1 0 0 7 c4Scripts 4 =
      some (.success 2,
        [(1, [.query true]),
          (2, [.query true, .add 7 true, .query true])]) ∧
    SelectRun 2 0 1 0 0 (.ok [⟨none, 7⟩]) c4Scripts 4 =
      some (.exhausted,
        [(1, [.query true, .add 7 true, .query true]),
          (2, [.query true, .add 7 true, .query true])]) := by
  constructor
  · decide
  · decide

lemma attempt_no_routeGet (h : Nat) (li : Int) (ip : Nat) (nilb : Bool)
    (s : AttemptScript) : Op.routeGet ∉ (attempt h li ip nilb s).2 := by
  unfold attempt
  cases nilb
  · rw [if_neg (by decide : ¬(false = true))]
    by_cases h1 : ip = firstAddr h ip
    · rw [if_pos h1]; simp
    · rw [if_neg h1]
      by_cases h2 : ip = lastAddr h ip
      · rw [if_pos h2]; simp
      · rw [if_neg h2]
        rcases hpre : s.preQuery with u | rs
        · simp
        · by_cases hn : numRoutesOfList rs > 0
          · simp [hn]
          · by_cases ha : s.addOk = true
            · rcases hrq : s.reQuery with u2 | rs2
              · by_cases hd : s.delOk = true <;> simp [hn, ha, hd]
              · by_cases hv : numRoutesOfList rs2 < 1
                · simp [hn, ha, hv]
                · by_cases hone : numRoutesOfList rs2 = 1
                  · simp [hn, ha, hv, hone]
                  · by_cases hd : s.delOk = true <;>
                      simp [hn, ha, hv, hone, hd]
            · simp [hn, ha]
  · simp

lemma newLoop_no_routeGet (h : Nat) (li : Int) (search : Bool)
    (startA firstA lastA : Nat) (scripts : Nat → AttemptScript) :
    ∀ fuel cur k out tr,
      newLoop h li search startA firstA lastA scripts fuel cur k =
        some (out, tr) →
      ∀ p ∈ tr, Op.routeGet ∉ p.2 := by
  intro fuel
  induction fuel with
  | zero => intro cur k out tr hcon; simp [newLoop_zero] at hcon
  | succ fuel ih =>
    intro cur k out tr hrun p hp
    have hops := attempt_no_routeGet h li cur false (scripts k)
    rcases hres : (attempt h li cur false (scripts k)).1 with e | u
    · cases search
      · rw [newLoop_succ_pinned h li startA firstA lastA scripts fuel cur k e
          hres] at hrun
        rcases hmap : newLoop h li false startA firstA lastA scripts fuel cur
            (k + 1) with _ | q
        · rw [hmap, Option.map_none'] at hrun
          exact Option.noConfusion hrun
        · rw [hmap] at hrun
          simp only [Option.map_some', Option.some.injEq, Prod.mk.injEq]
            at hrun
          obtain ⟨ho, htr⟩ := hrun
          rw [← htr] at hp
          simp only [List.mem_cons] at hp
          rcases hp with rfl | hp
          · exact hops
          · exact ih cur (k + 1) q.1 q.2 (by rw [hmap]) p hp
      · by_cases hstop : advance firstA lastA cur = startA
        · rw [newLoop_succ_stop h li startA firstA lastA scripts fuel cur k e
            hres hstop] at hrun
          simp only [Option.some.injEq, Prod.mk.injEq] at hrun
          obtain ⟨ho, htr⟩ := hrun
          rw [← htr] at hp
          simp only [List.mem_cons, List.not_mem_nil, or_false] at hp
          subst hp
          exact hops
        · rw [newLoop_succ_go h li startA firstA lastA scripts fuel cur k e
            hres hstop] at hrun
          rcases hmap : newLoop h li true startA firstA lastA scripts fuel
              (advance firstA lastA cur) (k + 1) with _ | q
          · rw [hmap, Option.map_none'] at hrun
            exact Option.noConfusion hrun
          · rw [hmap] at hrun
            simp only [Option.map_some', Option.some.injEq, Prod.mk.injEq]
              at hrun
            obtain ⟨ho, htr⟩ := hrun
            rw [← htr] at hp
            simp only [List.mem_cons] at hp
            rcases hp with rfl | hp
            · exact hops
            · exact ih (advance firstA lastA cur) (k + 1) q.1 q.2
                (by rw [hmap]) p hp
    · rw [newLoop_succ_ok h li search startA firstA lastA scripts fuel cur k
        u hres] at hrun
      simp only [Option.some.injEq, Prod.mk.injEq] at hrun
      obtain ⟨ho, htr⟩ := hrun
      rw [← htr] at hp
      simp only [List.mem_cons, List.not_mem_nil, or_false] at hp
      subst hp
      exact hops

/-- Claim C9 (amended): `SelectAddress` resolves the interface through the
gateway — it fails with the link-not-found error before any claim is
attempted when no gateway-less route exists, and otherwise runs the session
with the link index of the first gateway-less route returned by the
lookup.  `address.New`, by contrast, never performs the lookup: whatever
link index the caller supplies (−1 when unknown), its runs issue no
`RouteGet` operation at all (see the counterexample for a claim attempted
with the unresolved index −1). -/
theorem claim9_link_resolution (h reqIP randStart xf xl : Nat)
    (scripts : Nat → AttemptScript) (fuel : Nat)
    (routes : List RGRoute) :
    ((∀ r ∈ routes, r.gw ≠ none) →
      SelectRun h reqIP randStart xf xl (.ok routes) scripts fuel =
        some (.linkErr .notFound, [])) ∧
    (∀ r : RGRoute, routes.find? (fun r0 => r0.gw.isNone) = some r →
      r ∈ routes ∧ r.gw = none ∧
      SelectRun h reqIP randStart xf xl (.ok routes) scripts fuel =
        selectBody h reqIP randStart xf xl r.linkIndex scripts fuel) ∧
    (∀ li : Int, ∀ out tr,
      NewRun h reqIP randStart xf xl li scripts fuel = some (out, tr) →
      ∀ p ∈ tr, Op.routeGet ∉ p.2) := by
  refine ⟨?_, ?_, ?_⟩
  · intro hall
    have hfind : routes.find? (fun r0 => r0.gw.isNone) = none := by
      rw [List.find?_eq_none]
      intro x hx
      simp [Option.isNone_iff_eq_none, hall x hx]
    unfold SelectRun linkIndexFromIPNet
    simp [hfind]
  · intro r hfind
    refine ⟨List.mem_of_find?_eq_some hfind, ?_, ?_⟩
    · have := List.find?_some hfind
      simpa [Option.isNone_iff_eq_none] using this
    · unfold SelectRun linkIndexFromIPNet
      simp [hfind]
  · intro li out tr hrun p hp
    unfold NewRun at hrun
    split at hrun
    · exact newLoop_no_routeGet h li true randStart
        (ipAdd (firstAddr h randStart) xf)
        (ipAdd (lastAddr h randStart) (-(xl : Int))) scripts fuel randStart 0
        out tr hrun p hp
    · exact newLoop_no_routeGet h li false 0 0 0 scripts fuel reqIP 0
        out tr hrun p hp

/-- Witness for the amended C9: with a `RouteGet` response whose every
route has a gateway, `SelectAddress` fails with the link-not-found error
and attempts nothing. -/
theorem claim9_link_resolution_witness :
    SelectRun 2 0 1 0 0 (.ok [⟨some 9, 3⟩, ⟨some 8, 4⟩]) iuScripts 4 =
      some (.linkErr .notFound, []) := by
  exact (claim9_link_resolution 2 0 1 0 0 iuScripts 4
    [⟨some 9, 3⟩, ⟨some 8, 4⟩]).1 (by decide)

/-- Counterexample to C9 as stated: `address.New` with the unknown link
index sentinel −1 (what the CNI main passes when LINK_INDEX is absent)
performs no link resolution — no `RouteGet` operation appears — and goes on
to attempt and complete a claim whose `RouteAdd` carries the unresolved
index −1, instead of resolving the interface or failing with a
link-not-found error. -/
theorem claim9_counterexample :
    NewRun 2 0 1 0 0 (-1) freeThenOursScripts 3 =
      some (.success 1,
        [(1, [.query true, .add (-1) true, .query true])]) := by
  decide

lemma get?_set_same {α : Type} (l : List α) (n : Nat) (a b : α)
    (h : l.get? n = some b) : (l.set n a).get? n = some a := by
  have hn : n < l.length := by
    by_contra hc
    rw [List.get?_eq_none.mpr (by omega)] at h
    exact Option.noConfusion h
  simp only [List.get?_eq_getElem?]
  simp [List.getElem?_set_self', List.getElem?_eq_getElem hn, Function.const]

lemma selectLoopPtr_zero (li : Int) (search : Bool)
    (startA firstA lastA : Nat) (scripts : Nat → AttemptScript)
    (hp : List IPNetObj) (q k : Nat) :
    selectLoopPtr li search startA firstA lastA scripts 0 hp q k = none := rfl

lemma selectLoopPtr_succ (li : Int) (search : Bool)
    (startA firstA lastA : Nat) (scripts : Nat → AttemptScript)
    (fuel : Nat) (hp : List IPNetObj) (q k : Nat) :
    selectLoopPtr li search startA firstA lastA scripts (fuel + 1) hp q k =
      match hp.get? q with
      | none => none
      | some obj =>
        match (attemptAddressF obj.hbits li obj.ip false (scripts k)).1 with
        | .ok _ => some (.ok q, hp)
        | .error _ =>
          if search then
            if advance firstA lastA obj.ip = startA then
              some (.error .exhausted,
                hp.set q { obj with ip := advance firstA lastA obj.ip })
            else
              selectLoopPtr li search startA firstA lastA scripts fuel
                (hp.set q { obj with ip := advance firstA lastA obj.ip }) q
                (k + 1)
          else
            selectLoopPtr li search startA firstA lastA scripts fuel hp q
              (k + 1) := rfl

lemma attemptAddressF_ok_valid (h : Nat) (li : Int) (ip : Nat)
    (s : AttemptScript) (u : Unit)
    (hok : (attemptAddressF h li ip false s).1 = .ok u) :
    ip ≠ firstAddr h ip := by
  intro hcon
  unfold attemptAddressF at hok
  rw [if_neg (by decide : ¬(false = true)), if_pos hcon] at hok
  exact Except.noConfusion hok

lemma selectLoopPtr_ok_inv (li : Int) (search : Bool)
    (startA firstA lastA : Nat) (scripts : Nat → AttemptScript) (hb : Nat) :
    ∀ fuel hp q k res hp',
      selectLoopPtr li search startA firstA lastA scripts fuel hp q k =
        some (.ok res, hp') →
      (∀ obj0 : IPNetObj, hp.get? q = some obj0 → obj0.hbits = hb) →
      res = q ∧ ∃ obj : IPNetObj, hp'.get? q = some obj ∧ obj.hbits = hb ∧
        ∃ j, (attemptAddressF hb li obj.ip false (scripts j)).1 = .ok () := by
  intro fuel
  induction fuel with
  | zero =>
    intro hp q k res hp' hrun
    rw [selectLoopPtr_zero] at hrun
    exact Option.noConfusion hrun
  | succ fuel ih =>
    intro hp q k res hp' hrun hinv
    rw [selectLoopPtr_succ] at hrun
    rcases hobj : hp.get? q with _ | obj
    · rw [hobj] at hrun
      exact Option.noConfusion hrun
    · rw [hobj] at hrun
      simp only [] at hrun
      have hhb : obj.hbits = hb := hinv obj hobj
      rcases hres : (attemptAddressF obj.hbits li obj.ip false (scripts k)).1
          with e | u
      · rw [hres] at hrun
        simp only [] at hrun
        cases search
        · rw [if_neg (by decide : ¬(false = true))] at hrun
          exact ih hp q (k + 1) res hp' hrun hinv
        · rw [if_pos (rfl : true = true)] at hrun
          by_cases hstop : advance firstA lastA obj.ip = startA
          · rw [if_pos hstop] at hrun
            simp only [Option.some.injEq, Prod.mk.injEq] at hrun
            exact absurd hrun.1 (by simp)
          · rw [if_neg hstop] at hrun
            refine ih (hp.set q { obj with ip := advance firstA lastA obj.ip })
              q (k + 1) res hp' hrun ?_
            intro obj0 hobj0
            rw [get?_set_same hp q _ obj hobj] at hobj0
            obtain rfl : ({ obj with ip := advance firstA lastA obj.ip } :
                IPNetObj) = obj0 := by simpa using hobj0
            exact hhb
      · rw [hres] at hrun
        simp only [Option.some.injEq, Prod.mk.injEq] at hrun
        obtain ⟨hq, hhp⟩ := hrun
        have hres' : res = q := (Except.ok.inj hq).symm
        refine ⟨hres', obj, ?_, hhb, k, ?_⟩
        · rw [← hhp]
          exact hobj
        · cases u
          rw [← hhb]
          exact hres

/-- Claim C10: `SelectAddress` aliases its argument (`randAddr := addr`) and
returns that very pointer; the search loop mutates the shared IPNet in
place each iteration, so after a successful return the caller's original
argument object holds the allocated candidate — an address on which an
attempt succeeded — and no longer the subnet address originally supplied. -/
theorem claim10_pointer_aliasing (hp : List IPNetObj) (p : Nat)
    (h reqIP randStart xf xl : Nat) (li : Int)
    (rgResp : Except Unit (List RGRoute)) (scripts : Nat → AttemptScript)
    (fuel : Nat) (res : Nat) (hp' : List IPNetObj)
    (hres : linkIndexFromIPNet rgResp = .ok li)
    (hobj : hp.get? p = some ⟨reqIP, h⟩)
    (halign : reqIP % 2 ^ h = 0)
    (hrun : selectAddressPtr hp p randStart xf xl rgResp scripts fuel =
      some (.ok res, hp')) :
    res = p ∧ ∃ obj : IPNetObj, hp'.get? p = some obj ∧ obj.hbits = h ∧
      obj.ip ≠ reqIP ∧
      ∃ j, (attemptAddressF h li obj.ip false (scripts j)).1 = .ok () := by
  unfold selectAddressPtr at hrun
  rw [hres] at hrun
  simp only [] at hrun
  rw [hobj] at hrun
  simp only [] at hrun
  rw [if_pos (show (⟨reqIP, h⟩ : IPNetObj).ip =
    firstAddr (⟨reqIP, h⟩ : IPNetObj).hbits (⟨reqIP, h⟩ : IPNetObj).ip from
      (firstAddr_self_of_aligned h reqIP halign).symm)] at hrun
  have hinv : ∀ obj0 : IPNetObj,
      (hp.set p { (⟨reqIP, h⟩ : IPNetObj) with ip := randStart }).get? p =
        some obj0 → obj0.hbits = h := by
    intro obj0 hobj0
    rw [get?_set_same hp p _ _ hobj] at hobj0
    obtain rfl : ({ (⟨reqIP, h⟩ : IPNetObj) with ip := randStart } :
        IPNetObj) = obj0 := by simpa using hobj0
    rfl
  obtain ⟨hresp, obj, hget, hhb, j, hok⟩ :=
    selectLoopPtr_ok_inv li true randStart
      (ipAdd (firstAddr (⟨reqIP, h⟩ : IPNetObj).hbits randStart) xf)
      (ipAdd (lastAddr (⟨reqIP, h⟩ : IPNetObj).hbits randStart)
        (-(xl : Int))) scripts h fuel
      (hp.set p { (⟨reqIP, h⟩ : IPNetObj) with ip := randStart }) p 0 res hp'
      hrun hinv
  refine ⟨hresp, obj, hget, hhb, ?_, j, hok⟩
  intro hcon
  have hvalid := attemptAddressF_ok_valid h li obj.ip (scripts j) () hok
  rw [hcon] at hvalid
  exact hvalid (firstAddr_self_of_aligned h reqIP halign).symm

/-- Witness for C10: a concrete successful search run through the pointer
model returns the argument pointer 0 and leaves the caller's object holding
the allocated candidate 1 instead of the supplied subnet address 0. -/
theorem claim10_pointer_aliasing_witness :
    (0 : Nat) = 0 ∧ ∃ obj : IPNetObj,
      ([⟨1, 2⟩] : List IPNetObj).get? 0 = some obj ∧ obj.hbits = 2 ∧
      obj.ip ≠ 0 ∧
      ∃ j, (attemptAddressF 2 7 obj.ip false (freeOkScripts j)).1 =
        .ok () := by
  exact claim10_pointer_aliasing [⟨0, 2⟩] 0 2 0 1 0 0 7 (.ok [⟨none, 7⟩])
    freeOkScripts 2 0 [⟨1, 2⟩] (by decide) (by decide) (by decide) (by decide)
